import Mathlib

/-!
Verification development for the web_crawler_extractor repository.

The Python source is shallowly embedded: URLs and other strings are lists of
characters (or `String`), the circuit breaker is a record of total maps with
explicit natural-number time, the per-URL fetch procedure is rendered as the
trace of observable actions it performs, and the concurrent crawl is a small
transition system over the shared session state.
-/

namespace WebCrawler

/-!  Section 1: URL normalization, from src/url_handler.py,
`URLHandler._normalize_url`.  The two regex substitutions are modelled
including the semantics of an unanchored Python search whose pattern ends in
a dollar anchor: the anchor matches at the end of the string and also just
before a newline that ends the string, while dot never matches a newline. -/

/-- true when character `c` occurs in the list (Python `c in s`). -/
def hasChar (c : Char) : List Char → Bool
  | [] => false
  | a :: t => a == c || hasChar c t

/-- true when the list contains no newline character. -/
def noNewline (s : List Char) : Bool := !hasChar '\n' s

/-- true when the list ends with a newline and contains no other newline: the
one situation in which a final dollar anchor can match strictly inside the
string. -/
def onlyFinalNewline (s : List Char) : Bool :=
  noNewline s.dropLast && (s.getLast? == some '\n')

/-- Model of the first substitution of `_normalize_url`: delete from the
leftmost hash sign whose tail can be matched by dot-star followed by the
dollar anchor. -/
def stripFragment : List Char → List Char
  | [] => []
  | c :: cs =>
    if c = '#' then
      if noNewline cs then []
      else if onlyFinalNewline cs then ['\n']
      else c :: stripFragment cs
    else c :: stripFragment cs

/-- Model of the second substitution of `_normalize_url`, acting on the
reversed string: delete a slash standing at the very end of the string, or
standing just before a final newline. -/
def stripSlashRev : List Char → List Char
  | [] => []
  | c :: t =>
    if c = '/' then t
    else if c = '\n' ∧ t.head? = some '/' then '\n' :: t.tail
    else c :: t

/-- Remove one trailing slash, as the substitution with pattern slash-dollar. -/
def stripTrailingSlash (s : List Char) : List Char :=
  (stripSlashRev s.reverse).reverse

/-- `URLHandler._normalize_url`: remove the fragment, then remove a trailing
slash. -/
def normalize_url (s : List Char) : List Char :=
  stripTrailingSlash (stripFragment s)

/-- true when `p` is a prefix of `s` (character lists). -/
def listIsPref : List Char → List Char → Bool
  | [], _ => true
  | _ :: _, [] => false
  | p :: ps, c :: cs => p == c && listIsPref ps cs

/-- true when the list ends with two slashes. -/
def endsTwoSlashes (s : List Char) : Bool := listIsPref ['/', '/'] s.reverse

lemma hasChar_eq_false_iff (c : Char) (l : List Char) :
    hasChar c l = false ↔ c ∉ l := by
  induction l with
  | nil => simp [hasChar]
  | cons a t ih =>
    rw [hasChar, Bool.or_eq_false_iff, beq_eq_false_iff_ne, ih]
    constructor
    · rintro ⟨ha, ht⟩ hmem
      rcases List.mem_cons.mp hmem with h | h
      · exact ha h.symm
      · exact ht h
    · intro h
      exact ⟨fun hx => h (by rw [hx]; exact List.mem_cons_self _ _),
        fun hx => h (List.mem_cons_of_mem _ hx)⟩

lemma stripFragment_of_no_hash (s : List Char) (h : hasChar '#' s = false) :
    stripFragment s = s := by
  induction s with
  | nil => rfl
  | cons c cs ih =>
    rw [hasChar_eq_false_iff] at h
    simp only [List.mem_cons, not_or] at h
    rw [stripFragment, if_neg (fun hc => h.1 hc.symm),
      ih (by rw [hasChar_eq_false_iff]; exact h.2)]

lemma stripFragment_no_hash (s : List Char) (h : noNewline s = true) :
    hasChar '#' (stripFragment s) = false := by
  induction s with
  | nil => rfl
  | cons c cs ih =>
    rw [noNewline, Bool.not_eq_true', hasChar_eq_false_iff] at h
    simp only [List.mem_cons, not_or] at h
    have hcs : noNewline cs = true := by
      rw [noNewline, Bool.not_eq_true', hasChar_eq_false_iff]; exact h.2
    by_cases hc : c = '#'
    · rw [stripFragment, if_pos hc, if_pos hcs]; rfl
    · rw [stripFragment, if_neg hc]
      rw [hasChar_eq_false_iff]
      simp only [List.mem_cons, not_or]
      exact ⟨fun hx => hc hx.symm, by rw [← hasChar_eq_false_iff]; exact ih hcs⟩

lemma stripFragment_noNewline (s : List Char) (h : noNewline s = true) :
    noNewline (stripFragment s) = true := by
  induction s with
  | nil => rfl
  | cons c cs ih =>
    rw [noNewline, Bool.not_eq_true', hasChar_eq_false_iff] at h
    simp only [List.mem_cons, not_or] at h
    have hcs : noNewline cs = true := by
      rw [noNewline, Bool.not_eq_true', hasChar_eq_false_iff]; exact h.2
    by_cases hc : c = '#'
    · rw [stripFragment, if_pos hc, if_pos hcs]; rfl
    · rw [stripFragment, if_neg hc]
      rw [noNewline, Bool.not_eq_true', hasChar_eq_false_iff]
      simp only [List.mem_cons, not_or]
      refine ⟨h.1, ?_⟩
      have hih := ih hcs
      rw [noNewline, Bool.not_eq_true', hasChar_eq_false_iff] at hih
      exact hih

lemma stripSlashRev_id (t : List Char) (hhead : t.head? ≠ some '/')
    (hnl : '\n' ∉ t) : stripSlashRev t = t := by
  cases t with
  | nil => rfl
  | cons a r =>
    have ha : ¬ a = '/' := fun h => hhead (by rw [List.head?_cons, h])
    have ha2 : ¬ a = '\n' :=
      fun h => hnl (by rw [← h]; exact List.mem_cons_self a r)
    rw [stripSlashRev, if_neg ha, if_neg (fun hx => ha2 hx.1)]

lemma mem_stripSlashRev (c : Char) (r : List Char) (h : c ∈ stripSlashRev r) :
    c ∈ r := by
  cases r with
  | nil => exact h
  | cons a t =>
    rw [stripSlashRev] at h
    split_ifs at h with h1 h2
    · exact List.mem_cons_of_mem a h
    · obtain ⟨ha, _⟩ := h2
      rcases List.mem_cons.mp h with hx | hx
      · rw [hx, ← ha]; exact List.mem_cons_self a t
      · exact List.mem_cons_of_mem a (List.mem_of_mem_tail hx)
    · exact h

/-- Claim C5, counterexample: a URL ending in a double slash defeats
idempotence of `_normalize_url`, since each application removes one trailing
slash.  Normalizing the two-character URL of two slashes gives one slash;
normalizing again gives the empty string. -/
theorem normalize_url_not_idempotent :
    ¬ normalize_url (normalize_url ['/', '/']) = normalize_url ['/', '/'] := by
  decide

/-- Claim C5, amended: for every URL containing no newline character and whose
fragment-stripped form does not end in two consecutive slashes,
`_normalize_url` is idempotent. -/
theorem normalize_url_idempotent (s : List Char) (h1 : noNewline s = true)
    (h2 : endsTwoSlashes (stripFragment s) = false) :
    normalize_url (normalize_url s) = normalize_url s := by
  have hu_hash : hasChar '#' (stripFragment s) = false := stripFragment_no_hash s h1
  have hu_nl : noNewline (stripFragment s) = true := stripFragment_noNewline s h1
  rw [hasChar_eq_false_iff] at hu_hash
  rw [noNewline, Bool.not_eq_true', hasChar_eq_false_iff] at hu_nl
  set u := stripFragment s with hu
  set w := stripSlashRev u.reverse with hw
  have hw_sub : ∀ c, c ∈ w → c ∈ u := by
    intro c hc
    have hm := mem_stripSlashRev c u.reverse hc
    simpa using hm
  have hnorm1 : normalize_url s = w.reverse := rfl
  have hfrag2 : stripFragment w.reverse = w.reverse := by
    apply stripFragment_of_no_hash
    rw [hasChar_eq_false_iff]
    intro hmem
    exact hu_hash (hw_sub '#' (by simpa using hmem))
  have hnl_rev : '\n' ∉ u.reverse := by simpa using hu_nl
  have hww : stripSlashRev w = w := by
    rw [hw]
    cases hrev : u.reverse with
    | nil => rfl
    | cons a t =>
      by_cases ha : a = '/'
      · subst ha
        have hstep : stripSlashRev ('/' :: t) = t := by
          rw [stripSlashRev, if_pos rfl]
        have hhead : t.head? ≠ some '/' := by
          intro hh
          cases t with
          | nil => simp at hh
          | cons b r =>
            rw [List.head?_cons] at hh
            have hb : b = '/' := Option.some.inj hh
            rw [endsTwoSlashes, hrev, hb] at h2
            simp [listIsPref] at h2
        have hnlt : '\n' ∉ t := by
          intro hmem
          exact hnl_rev (by rw [hrev]; exact List.mem_cons_of_mem _ hmem)
        rw [hstep, stripSlashRev_id t hhead hnlt]
      · have hid : stripSlashRev (a :: t) = a :: t := by
          apply stripSlashRev_id
          · rw [List.head?_cons]
            intro hh
            exact ha (Option.some.inj hh)
          · intro hmem
            exact hnl_rev (by rw [hrev]; exact hmem)
        rw [hid, hid]
  rw [hnorm1, normalize_url, hfrag2, stripTrailingSlash, List.reverse_reverse, hww]

/-- Witness for the amended claim C5 at a concrete URL with a fragment and a
trailing slash. -/
theorem normalize_url_idempotent_witness :
    noNewline ("https://example.com/docs/#intro".toList) = true ∧
    endsTwoSlashes (stripFragment ("https://example.com/docs/#intro".toList)) = false ∧
    normalize_url (normalize_url ("https://example.com/docs/#intro".toList)) =
      normalize_url ("https://example.com/docs/#intro".toList) :=
  ⟨by decide, by decide,
    normalize_url_idempotent _ (by decide) (by decide)⟩

/-!  Section 2: the per-domain circuit breaker, from src/crawler.py, class
`CircuitBreaker`.  Wall-clock instants are natural numbers; the `failures`
defaultdict is a map to `Option Nat` whose `none` means the key was never
inserted (Python `domain in self.failures` is `isSome`); `open_circuits`
maps a domain to its open-until instant while the circuit is open. -/

/-- State of the `CircuitBreaker` class. -/
structure CircuitBreaker where
  threshold : Nat
  timeout : Nat
  failures : String → Option Nat
  open_circuits : String → Option Nat

/-- Consecutive-failure count of a domain (a defaultdict read defaults to 0). -/
def failCount (cb : CircuitBreaker) (d : String) : Nat := (cb.failures d).getD 0

/-- `CircuitBreaker.record_failure` at instant `now`: increment the domain's
failure count; when the count reaches the threshold and the circuit is not
already open, open it until `now + timeout`. -/
def record_failure (now : Nat) (d : String) (cb : CircuitBreaker) :
    CircuitBreaker :=
  let n := (cb.failures d).getD 0 + 1
  let f := fun x => if x = d then some n else cb.failures x
  if cb.threshold ≤ n ∧ cb.open_circuits d = none then
    { cb with
      failures := f
      open_circuits := fun x =>
        if x = d then some (now + cb.timeout) else cb.open_circuits x }
  else { cb with failures := f }

/-- `CircuitBreaker.record_success`: reset the failure count to zero, but only
when the domain already has an entry (Python `if domain in self.failures`). -/
def record_success (d : String) (cb : CircuitBreaker) : CircuitBreaker :=
  match cb.failures d with
  | some _ =>
    { cb with failures := fun x => if x = d then some 0 else cb.failures x }
  | none => cb

/-- `CircuitBreaker.is_open` at instant `now`: while open and not yet past the
open-until instant, report true; strictly past it, close the circuit and reset
the failure count.  The method mutates the breaker, so it returns the verdict
together with the new state. -/
def is_open (now : Nat) (d : String) (cb : CircuitBreaker) :
    Bool × CircuitBreaker :=
  match cb.open_circuits d with
  | some deadline =>
    if deadline < now then
      (false,
        { cb with
          open_circuits := fun x => if x = d then none else cb.open_circuits x
          failures := fun x => if x = d then some 0 else cb.failures x })
    else (true, cb)
  | none => (false, cb)

/-- Claim C3: for a closed circuit, a recorded failure opens it exactly when
the consecutive-failure count reaches the threshold, and then until
`now + timeout`; while open and not yet past its deadline, `is_open` answers
true and changes nothing; strictly past the deadline it answers false, closes
the circuit and resets the failure count to zero; and for a domain with no
open-circuit entry it answers false. -/
theorem circuit_breaker_open_close (cb : CircuitBreaker) (d : String)
    (now : Nat) :
    (cb.open_circuits d = none →
      (¬ (record_failure now d cb).open_circuits d = none ↔
        cb.threshold ≤ failCount cb d + 1))
    ∧ (cb.open_circuits d = none → cb.threshold ≤ failCount cb d + 1 →
      (record_failure now d cb).open_circuits d = some (now + cb.timeout))
    ∧ (∀ dl, cb.open_circuits d = some dl → now ≤ dl →
      (is_open now d cb).1 = true ∧ (is_open now d cb).2 = cb)
    ∧ (∀ dl, cb.open_circuits d = some dl → dl < now →
      (is_open now d cb).1 = false ∧
        ((is_open now d cb).2).open_circuits d = none ∧
        failCount ((is_open now d cb).2) d = 0)
    ∧ (cb.open_circuits d = none → (is_open now d cb).1 = false) := by
  refine ⟨?_, ?_, ?_, ?_, ?_⟩
  · intro hnone
    by_cases hthr : cb.threshold ≤ failCount cb d + 1
    · have hsome : (record_failure now d cb).open_circuits d =
          some (now + cb.timeout) := by
        unfold record_failure
        rw [failCount] at hthr
        rw [if_pos ⟨hthr, hnone⟩]
        simp
      simp [hsome, hthr]
    · have hnone2 : (record_failure now d cb).open_circuits d = none := by
        unfold record_failure
        rw [failCount] at hthr
        rw [if_neg (fun hx => hthr hx.1)]
        exact hnone
      simp [hnone2, hthr]
  · intro hnone hthr
    unfold record_failure
    rw [failCount] at hthr
    rw [if_pos ⟨hthr, hnone⟩]
    simp
  · intro dl hdl hle
    unfold is_open
    rw [hdl]
    dsimp only
    rw [if_neg (Nat.not_lt.mpr hle)]
    exact ⟨rfl, rfl⟩
  · intro dl hdl hlt
    unfold is_open
    rw [hdl]
    dsimp only
    rw [if_pos hlt]
    refine ⟨rfl, by simp, by simp [failCount]⟩
  · intro hnone
    unfold is_open
    rw [hnone]

/-- Witness for claim C3: a breaker with threshold two and timeout ten, on a
domain with one prior failure and no open circuit. -/
theorem circuit_breaker_open_close_witness :
    (CircuitBreaker.mk 2 10 (fun _ => some 1) (fun _ => none)).open_circuits
        "a.example" = none ∧
    (2 : Nat) ≤ failCount
        (CircuitBreaker.mk 2 10 (fun _ => some 1) (fun _ => none)) "a.example" + 1 ∧
    (record_failure 5 "a.example"
        (CircuitBreaker.mk 2 10 (fun _ => some 1) (fun _ => none))).open_circuits
        "a.example" = some (5 + 10) :=
  ⟨rfl, by decide,
    (circuit_breaker_open_close
      (CircuitBreaker.mk 2 10 (fun _ => some 1) (fun _ => none))
      "a.example" 5).2.1 rfl (by decide)⟩

/-- Claim C7: `record_success` resets the domain's consecutive-failure count
to zero, leaves the open-circuits mapping unchanged (so an already-open
circuit stays open, and the verdict of `is_open` at every instant is
unaffected), and touches no other domain's failure count. -/
theorem record_success_frame (cb : CircuitBreaker) (d : String) :
    failCount (record_success d cb) d = 0
    ∧ (record_success d cb).open_circuits = cb.open_circuits
    ∧ (∀ now, (is_open now d (record_success d cb)).1 = (is_open now d cb).1)
    ∧ (∀ x, ¬ x = d → (record_success d cb).failures x = cb.failures x) := by
  have hopen : (record_success d cb).open_circuits = cb.open_circuits := by
    cases h : cb.failures d with
    | none => simp [record_success, h]
    | some k => simp [record_success, h]
  refine ⟨?_, hopen, ?_, ?_⟩
  · cases h : cb.failures d with
    | none => simp [record_success, h, failCount]
    | some k => simp [record_success, h, failCount]
  · intro now
    unfold is_open
    rw [hopen]
    cases cb.open_circuits d with
    | none => rfl
    | some dl =>
      dsimp only
      by_cases hc : dl < now
      · rw [if_pos hc, if_pos hc]
      · rw [if_neg hc, if_neg hc]
  · intro x hx
    cases h : cb.failures d with
    | none => simp [record_success, h]
    | some k => simp [record_success, h, hx]

/-- Witness for claim C7 on a breaker whose domain has recorded failures. -/
theorem record_success_frame_witness :
    failCount (record_success "a.example"
      (CircuitBreaker.mk 2 10 (fun _ => some 7) (fun _ => some 9))) "a.example" = 0 :=
  (record_success_frame
    (CircuitBreaker.mk 2 10 (fun _ => some 7) (fun _ => some 9)) "a.example").1

/-!  Section 3: the per-URL fetch procedure `Crawler._crawl_url` from
src/crawler.py, rendered as the trace of observable actions it performs on
the shared crawl state.  The environment supplies the branch outcomes: the
admission-check verdicts and the outcome of each network attempt. -/

/-- Outcome of one network attempt inside the retry loop of `_crawl_url`. -/
inductive AttemptOutcome where
  | htmlOk
  | nonHtml
  | decodeFail
  | serverError
  | clientError
  | otherStatus
  | netTimeout
  | transportError
  | otherException
deriving DecidableEq

/-- Attempt outcomes that feed the circuit breaker and are retried with
backoff: server error 5xx, timeout, and transport-level client errors. -/
def retryable : AttemptOutcome → Bool
  | .serverError => true
  | .netTimeout => true
  | .transportError => true
  | _ => false

/-- Observable actions of `_crawl_url` on the shared crawl state. -/
inductive Act where
  | acquire
  | release
  | sleep (d : ℚ)
  | attempt
  | recordSuccessCB
  | recordFailureCB
  | addPage
  | markVisited
  | markFailed
  | incTotal
  | spawnChildren
  | backoff (d : ℚ)
deriving DecidableEq

/-- true for the network-attempt action. -/
def isAttempt : Act → Bool
  | Act.attempt => true
  | _ => false

/-- Project the delay out of a backoff action. -/
def backoffDelay : Act → Option ℚ
  | Act.backoff d => some d
  | _ => none

/-- Body of the retry loop of `_crawl_url` (lines 186-373), with enough fuel
to run the loop to completion; `fuel` is an upper bound on the remaining
iterations, maintained at `max_retries + 1 - retry_count` by `crawlLoop`
below, so the zero branch is never reached from `crawlLoop`.  Each iteration
sleeps the politeness delay, attempts the fetch, and dispatches on the
response exactly as the Python dispatch does; retryable outcomes record a
breaker failure and, with retries remaining, wait
`retry_delay * 2 ^ retry_count + jitter` before the next iteration, and
otherwise mark the URL failed. -/
def crawlLoopAux (delay retry_delay : ℚ) (jitter : Nat → ℚ) (max_retries : Nat)
    (out : Nat → AttemptOutcome) : Nat → Nat → List Act
  | 0, _ => []
  | fuel + 1, retry_count =>
    if retry_count ≤ max_retries then
      Act.sleep delay :: Act.attempt ::
        (match out retry_count with
         | .htmlOk => [Act.recordSuccessCB, Act.addPage, Act.markVisited,
             Act.incTotal, Act.spawnChildren]
         | .nonHtml => [Act.markVisited]
         | .decodeFail => [Act.markVisited]
         | .clientError => [Act.markFailed]
         | .otherStatus => [Act.markFailed]
         | .otherException => [Act.markFailed]
         | .serverError => Act.recordFailureCB ::
             (if retry_count = max_retries then [Act.markFailed]
              else Act.backoff
                  (retry_delay * 2 ^ retry_count + jitter retry_count) ::
                crawlLoopAux delay retry_delay jitter max_retries out fuel
                  (retry_count + 1))
         | .netTimeout => Act.recordFailureCB ::
             (if retry_count = max_retries then [Act.markFailed]
              else Act.backoff
                  (retry_delay * 2 ^ retry_count + jitter retry_count) ::
                crawlLoopAux delay retry_delay jitter max_retries out fuel
                  (retry_count + 1))
         | .transportError => Act.recordFailureCB ::
             (if retry_count = max_retries then [Act.markFailed]
              else Act.backoff
                  (retry_delay * 2 ^ retry_count + jitter retry_count) ::
                crawlLoopAux delay retry_delay jitter max_retries out fuel
                  (retry_count + 1)))
    else []

/-- The retry loop of `_crawl_url`, entered with a given retry counter. -/
def crawlLoop (delay retry_delay : ℚ) (jitter : Nat → ℚ) (max_retries : Nat)
    (out : Nat → AttemptOutcome) (retry_count : Nat) : List Act :=
  crawlLoopAux delay retry_delay jitter max_retries out
    (max_retries + 1 - retry_count) retry_count

/-- Trace of one invocation of `_crawl_url`.  The boolean parameters are the
branch verdicts in source order: the stop flag at entry (line 138), the
saturation probe of the semaphore (line 143), a timeout of the timed permit
acquire (lines 146-150) — each of which returns before any permit is held —
then, holding a permit inside the try block, the `_is_excluded_url` verdict
(line 165), the `_should_crawl` verdict (line 170) and the circuit-breaker
verdict (line 177), whose rejection branches perform an explicit release and
return.  The `finally` clause (lines 374-378) appends one further release to
every path that entered the try block, including those returns. -/
def crawlUrlTrace (stop semLocked acqTimeout excluded should_crawl
    breakerOpen : Bool) (delay retry_delay : ℚ) (jitter : Nat → ℚ)
    (max_retries : Nat) (out : Nat → AttemptOutcome) : List Act :=
  if stop then []
  else if semLocked then []
  else if acqTimeout then []
  else
    Act.acquire ::
      ((if excluded then [Act.release]
        else if !should_crawl then [Act.release]
        else if breakerOpen then [Act.release]
        else crawlLoop delay retry_delay jitter max_retries out 0)
        ++ [Act.release])

lemma crawlLoop_retry_last (delay retry_delay : ℚ) (jitter : Nat → ℚ)
    (max_retries : Nat) (out : Nat → AttemptOutcome)
    (hout : retryable (out max_retries) = true) :
    crawlLoop delay retry_delay jitter max_retries out max_retries =
      [Act.sleep delay, Act.attempt, Act.recordFailureCB, Act.markFailed] := by
  rw [crawlLoop]
  have h1 : max_retries + 1 - max_retries = 0 + 1 := by omega
  rw [h1, crawlLoopAux, if_pos (le_refl max_retries)]
  cases h : out max_retries <;> simp [retryable, h] at hout ⊢

lemma crawlLoop_retry_step (delay retry_delay : ℚ) (jitter : Nat → ℚ)
    (max_retries : Nat) (out : Nat → AttemptOutcome) (rc : Nat)
    (hlt : rc < max_retries) (hout : retryable (out rc) = true) :
    crawlLoop delay retry_delay jitter max_retries out rc =
      Act.sleep delay :: Act.attempt :: Act.recordFailureCB ::
        Act.backoff (retry_delay * 2 ^ rc + jitter rc) ::
        crawlLoop delay retry_delay jitter max_retries out (rc + 1) := by
  rw [crawlLoop, crawlLoop]
  have h1 : max_retries + 1 - rc = (max_retries + 1 - (rc + 1)) + 1 := by omega
  rw [h1, crawlLoopAux, if_pos (Nat.le_of_lt hlt)]
  have hne : ¬ rc = max_retries := Nat.ne_of_lt hlt
  cases h : out rc <;> simp [retryable, h, hne] at hout ⊢

/-- Claim C2, behaviour of the code at the failing inputs: on each of the
three admission-rejection paths (URL excluded, `_should_crawl` false,
circuit breaker open) the acquired permit is released twice — once by the
explicit release before the return and once more by the `finally` clause —
while on the fetch paths (success, and exhausted retries) it is released
exactly once. -/
theorem permit_release_counts :
    (crawlUrlTrace false false false true true false 0 1 (fun _ => 0) 3
      (fun _ => AttemptOutcome.htmlOk)).count Act.release = 2
    ∧ (crawlUrlTrace false false false false false false 0 1 (fun _ => 0) 3
      (fun _ => AttemptOutcome.htmlOk)).count Act.release = 2
    ∧ (crawlUrlTrace false false false false true true 0 1 (fun _ => 0) 3
      (fun _ => AttemptOutcome.htmlOk)).count Act.release = 2
    ∧ (crawlUrlTrace false false false false true false 0 1 (fun _ => 0) 3
      (fun _ => AttemptOutcome.htmlOk)).count Act.release = 1
    ∧ (crawlUrlTrace false false false false true false 0 1 (fun _ => 0) 1
      (fun _ => AttemptOutcome.netTimeout)).count Act.release = 1 := by
  refine ⟨?_, ?_, ?_, ?_, ?_⟩ <;> decide

lemma crawlLoop_count_attempt (d rd : ℚ) (j : Nat → ℚ) (mr : Nat)
    (out : Nat → AttemptOutcome) (h : ∀ k, retryable (out k) = true) :
    ∀ n rc, mr - rc = n → rc ≤ mr →
      (crawlLoop d rd j mr out rc).countP isAttempt = mr - rc + 1 := by
  intro n
  induction n with
  | zero =>
    intro rc h0 hle
    have heq : rc = mr := by omega
    subst heq
    rw [crawlLoop_retry_last d rd j rc out (h rc)]
    simp [List.countP_cons, isAttempt]
  | succ n ih =>
    intro rc h0 hle
    have hlt : rc < mr := by omega
    rw [crawlLoop_retry_step d rd j mr out rc hlt (h rc)]
    have hrec := ih (rc + 1) (by omega) (by omega)
    simp [List.countP_cons, isAttempt, hrec]
    omega

lemma crawlLoop_backoffs (d rd : ℚ) (j : Nat → ℚ) (mr : Nat)
    (out : Nat → AttemptOutcome) (h : ∀ k, retryable (out k) = true) :
    ∀ n rc, mr - rc = n → rc ≤ mr →
      (crawlLoop d rd j mr out rc).filterMap backoffDelay
        = (List.range' rc (mr - rc)).map (fun k => rd * 2 ^ k + j k) := by
  intro n
  induction n with
  | zero =>
    intro rc h0 hle
    have heq : rc = mr := by omega
    subst heq
    rw [crawlLoop_retry_last d rd j rc out (h rc), h0]
    simp [List.filterMap_cons, backoffDelay]
  | succ n ih =>
    intro rc h0 hle
    have hlt : rc < mr := by omega
    rw [crawlLoop_retry_step d rd j mr out rc hlt (h rc), h0,
      List.range'_succ]
    have hrec := ih (rc + 1) (by omega) (by omega)
    have h2 : mr - (rc + 1) = n := by omega
    rw [h2] at hrec
    simp [List.filterMap_cons, backoffDelay, hrec]

/-- Claim C4: for a URL whose fetch fails with a retryable error (timeout,
transport error, or 5xx) on every attempt, the retry loop performs exactly
`max_retries + 1` network attempts; the backoff delays occurring in the
trace are, in order, `retry_delay * 2 ^ attempt + jitter attempt` for
attempts `0` to `max_retries - 1`, each preceding the corresponding retry;
and the trace starts with the politeness sleep followed immediately by the
first attempt, so no backoff precedes the first attempt. -/
theorem retry_exhaustion_schedule (d rd : ℚ) (j : Nat → ℚ) (mr : Nat)
    (out : Nat → AttemptOutcome) (h : ∀ k, retryable (out k) = true) :
    (crawlLoop d rd j mr out 0).countP isAttempt = mr + 1
    ∧ (crawlLoop d rd j mr out 0).filterMap backoffDelay
        = (List.range mr).map (fun k => rd * 2 ^ k + j k)
    ∧ (crawlLoop d rd j mr out 0).take 2 = [Act.sleep d, Act.attempt] := by
  refine ⟨?_, ?_, ?_⟩
  · have hc := crawlLoop_count_attempt d rd j mr out h mr 0 (by omega)
      (Nat.zero_le mr)
    simpa using hc
  · have hb := crawlLoop_backoffs d rd j mr out h mr 0 (by omega)
      (Nat.zero_le mr)
    rw [hb, List.range_eq_range']
    rfl
  · rw [crawlLoop]
    show (crawlLoopAux d rd j mr out (mr + 1) 0).take 2 = [Act.sleep d, Act.attempt]
    rw [crawlLoopAux, if_pos (Nat.zero_le mr)]
    rfl

/-- Witness for claim C4 with two retries and servers failing throughout. -/
theorem retry_exhaustion_schedule_witness :
    (∀ k : Nat, retryable ((fun _ => AttemptOutcome.serverError) k) = true)
    ∧ ((crawlLoop 0 1 (fun _ => (1 : ℚ) / 2) 2
          (fun _ => AttemptOutcome.serverError) 0).countP isAttempt = 2 + 1
      ∧ (crawlLoop 0 1 (fun _ => (1 : ℚ) / 2) 2
          (fun _ => AttemptOutcome.serverError) 0).filterMap backoffDelay
          = (List.range 2).map (fun k => (1 : ℚ) * 2 ^ k + 1 / 2)
      ∧ (crawlLoop 0 1 (fun _ => (1 : ℚ) / 2) 2
          (fun _ => AttemptOutcome.serverError) 0).take 2
          = [Act.sleep 0, Act.attempt]) :=
  ⟨fun _ => rfl,
    retry_exhaustion_schedule 0 1 (fun _ => (1 : ℚ) / 2) 2
      (fun _ => AttemptOutcome.serverError) (fun _ => rfl)⟩

/-- Claim C8: a fetch answered by a 4xx status is marked permanently failed
immediately: the loop performs exactly one network attempt, no retry, no
backoff, and does not record a circuit-breaker failure. -/
theorem client_error_terminal (d rd : ℚ) (j : Nat → ℚ) (mr : Nat)
    (out : Nat → AttemptOutcome) (h : out 0 = AttemptOutcome.clientError) :
    crawlLoop d rd j mr out 0 = [Act.sleep d, Act.attempt, Act.markFailed]
    ∧ (crawlLoop d rd j mr out 0).countP isAttempt = 1
    ∧ Act.recordFailureCB ∉ crawlLoop d rd j mr out 0
    ∧ (∀ q : ℚ, Act.backoff q ∉ crawlLoop d rd j mr out 0) := by
  have hmain : crawlLoop d rd j mr out 0 =
      [Act.sleep d, Act.attempt, Act.markFailed] := by
    rw [crawlLoop]
    show crawlLoopAux d rd j mr out (mr + 1) 0 =
      [Act.sleep d, Act.attempt, Act.markFailed]
    rw [crawlLoopAux, if_pos (Nat.zero_le mr), h]
  refine ⟨hmain, ?_, ?_, ?_⟩
  · rw [hmain]
    simp [List.countP_cons, isAttempt]
  · rw [hmain]
    simp
  · intro q
    rw [hmain]
    simp

/-- Witness for claim C8. -/
theorem client_error_terminal_witness :
    ((fun _ : Nat => AttemptOutcome.clientError) 0 = AttemptOutcome.clientError)
    ∧ crawlLoop 0 1 (fun _ => (0 : ℚ)) 3 (fun _ => AttemptOutcome.clientError) 0
        = [Act.sleep 0, Act.attempt, Act.markFailed] :=
  ⟨rfl,
    (client_error_terminal 0 1 (fun _ => (0 : ℚ)) 3
      (fun _ => AttemptOutcome.clientError) rfl).1⟩

/-!  Section 4: URL exclusion, from src/url_handler.py,
`URLHandler._is_excluded_url`, and its use at the top of `_crawl_url`
(src/crawler.py lines 159-173): a URL found excluded leads to release and
return before any fetch or bookkeeping. -/

/-- Lowercase a character list (ASCII case folding, as in the IGNORECASE
regex searches and the Python lower calls). -/
def lowerL (s : List Char) : List Char := s.map Char.toLower

/-- true when `pat` occurs as a contiguous substring of the second list. -/
def listHasSub (pat : List Char) : List Char → Bool
  | [] => pat.isEmpty
  | c :: cs => listIsPref pat (c :: cs) || listHasSub pat cs

/-- true when `s` ends with `suf`. -/
def listEndsWith (suf s : List Char) : Bool := listIsPref suf.reverse s.reverse

/-- Asset extensions of the first exclusion pattern. -/
def assetExts : List String :=
  ["jpg", "jpeg", "png", "gif", "ico", "css", "js", "xml", "json"]

/-- Search of the anchored asset-extension pattern over the lowered URL: a
dot followed by one of the extensions at the end of the string (the final
dollar anchor also matches just before a newline that ends the string). -/
def matchesAssetExt (l : List Char) : Bool :=
  assetExts.any fun e =>
    listEndsWith ('.' :: e.toList) l || listEndsWith ('.' :: e.toList ++ ['\n']) l

/-- Alternatives of the auth-related exclusion pattern. -/
def authWords : List String := ["login", "logout", "signin", "signout", "admin"]

/-- Split a character list at the first occurrence of `t`, if any. -/
def splitFirst (t : Char) : List Char → Option (List Char × List Char)
  | [] => none
  | c :: cs =>
    if c = t then some ([], cs)
    else
      match splitFirst t cs with
      | some (a, b) => some (c :: a, b)
      | none => none

/-- Characters urllib allows in a URL scheme. -/
def isSchemeChar (c : Char) : Bool :=
  c.isAlpha || c.isDigit || c == '+' || c == '-' || c == '.'

/-- Model of `urllib.parse.urlparse(url).path`: urllib removes tab,
carriage-return and newline characters anywhere in the URL, strips a leading
scheme when the part before the first colon is a non-empty run of scheme
characters, strips a netloc introduced by a double slash and running to the
next slash, question mark or hash sign, cuts everything from the first hash
sign (fragment) and then from the first question mark (query), and finally
drops the semicolon parameters of the last path segment. -/
def urlparsePath (url : List Char) : List Char :=
  let u0 := url.filter fun c => !(c == '\t' || c == '\r' || c == '\n')
  let u1 :=
    match splitFirst ':' u0 with
    | some (before, after) =>
      if !before.isEmpty && before.all isSchemeChar then after else u0
    | none => u0
  let u2 :=
    match u1 with
    | '/' :: '/' :: rest =>
      rest.dropWhile fun c => !(c == '/' || c == '?' || c == '#')
    | _ => u1
  let u3 :=
    match splitFirst '#' u2 with
    | some (b, _) => b
    | none => u2
  let u4 :=
    match splitFirst '?' u3 with
    | some (b, _) => b
    | none => u3
  if hasChar '/' u4 then
    let seg := (u4.reverse.takeWhile fun c => !(c == '/')).reverse
    match splitFirst ';' seg with
    | some (b, _) => u4.take (u4.length - seg.length) ++ b
    | none => u4
  else
    match splitFirst ';' u4 with
    | some (b, _) => b
    | none => u4

/-- `URLHandler._is_excluded_url`: true when the URL matches one of the four
exclusion regexes — asset extension at the end, mailto or tel, an
auth-related word, a utm tracking parameter — searched case-insensitively
over the whole URL, or when a configured exclude keyword occurs in the
lowercased URL path. -/
def is_excluded_url (exclude_keywords : List String) (url : String) : Bool :=
  let l := lowerL url.toList
  if matchesAssetExt l
      || (listHasSub "mailto:".toList l || listHasSub "tel:".toList l)
      || (authWords.any fun w => listHasSub w.toList l)
      || (listHasSub "?utm_".toList l || listHasSub "&utm_".toList l) then
    true
  else if !exclude_keywords.isEmpty then
    exclude_keywords.any fun kw =>
      listHasSub (lowerL kw.toList) (lowerL (urlparsePath url.toList))
  else false

/-- Claim C6: a URL rejected by keyword or pattern exclusion is never added
to the visited set, never added to the failed set, and never counted toward
the link budget: whatever the other branch verdicts and fetch outcomes, the
trace of `_crawl_url` on such a URL contains no visited-set insertion, no
failed-set insertion and no increment of the success counter. -/
theorem excluded_url_untracked (kws : List String) (url : String)
    (stop semLocked acqTimeout should_crawl breakerOpen : Bool)
    (d rd : ℚ) (j : Nat → ℚ) (mr : Nat) (out : Nat → AttemptOutcome)
    (hex : is_excluded_url kws url = true) :
    Act.markVisited ∉ crawlUrlTrace stop semLocked acqTimeout
        (is_excluded_url kws url) should_crawl breakerOpen d rd j mr out
    ∧ Act.markFailed ∉ crawlUrlTrace stop semLocked acqTimeout
        (is_excluded_url kws url) should_crawl breakerOpen d rd j mr out
    ∧ Act.incTotal ∉ crawlUrlTrace stop semLocked acqTimeout
        (is_excluded_url kws url) should_crawl breakerOpen d rd j mr out := by
  rw [hex]
  unfold crawlUrlTrace
  cases stop <;> cases semLocked <;> cases acqTimeout <;> simp

/-- Witness for claim C6: the auth pattern rejects a login URL, and its
trace counts nothing. -/
theorem excluded_url_untracked_witness :
    is_excluded_url [] "https://example.com/login" = true ∧
    Act.incTotal ∉ crawlUrlTrace false false false
        (is_excluded_url [] "https://example.com/login") true false 0 1
        (fun _ => 0) 3 (fun _ => AttemptOutcome.htmlOk) :=
  ⟨by decide,
    (excluded_url_untracked [] "https://example.com/login" false false false
      true false 0 1 (fun _ => 0) 3 (fun _ => AttemptOutcome.htmlOk)
      (by decide)).2.2⟩

/-!  Section 5: the shared crawl-session state under concurrency, from
src/crawler.py, `Crawler.crawl` and `Crawler._crawl_url`.  Tasks at the same
program point are interchangeable, so the state records how many tasks sit
at the top of `_crawl_url` (before the stop-flag check of line 138) and how
many are past admission with a fetch outstanding (between line 186 and the
locked increment of lines 228-233).  The locked block is one atomic step, as
the lock guarantees.  Task creation (the seed tasks of line 113 and the
child tasks of lines 236-243) adds entry tasks; this is allowed in every
state, which only enlarges the behaviour, since an entry task that observes
the stop flag cannot be admitted anyway.  The permit pool is not modelled
here (it only restricts which interleavings occur); the counterexample below
uses two simultaneous fetches, which the pool of size at least two allows. -/

/-- Shared crawl-session state. -/
structure CrawlState where
  total_links : Nat
  stop_crawling : Bool
  entryTasks : Nat
  inFlight : Nat
deriving DecidableEq

/-- One interleaving step of the crawl, for a given `max_links` budget:
`admit` moves an entry task past the stop check and the admission checks
into an outstanding fetch, and exists only while the stop flag is unset;
`reject` lets an entry task leave without fetching (stop flag set, admission
refused, or permit unavailable); `fetchFail` ends an outstanding fetch
without a success (error paths, which never touch the counter);
`countSuccess` is the locked block of lines 228-233: it increments the
counter and sets the stop flag when the budget is reached; `spawn` creates
new tasks at entry. -/
inductive CrawlStep (max_links : Nat) : CrawlState → CrawlState → Prop
  | admitFetch (t e i : Nat) :
      CrawlStep max_links ⟨t, false, e + 1, i⟩ ⟨t, false, e, i + 1⟩
  | reject (t : Nat) (b : Bool) (e i : Nat) :
      CrawlStep max_links ⟨t, b, e + 1, i⟩ ⟨t, b, e, i⟩
  | fetchFail (t : Nat) (b : Bool) (e i : Nat) :
      CrawlStep max_links ⟨t, b, e, i + 1⟩ ⟨t, b, e, i⟩
  | countSuccess (t : Nat) (b : Bool) (e i : Nat) :
      CrawlStep max_links ⟨t, b, e, i + 1⟩
        ⟨t + 1, b || decide (max_links ≤ t + 1), e, i⟩
  | spawn (t : Nat) (b : Bool) (e i k : Nat) :
      CrawlStep max_links ⟨t, b, e, i⟩ ⟨t, b, e + k, i⟩

/-- The crawl states reachable from an initial state with `n` seed tasks,
a zero counter and a clear stop flag. -/
def crawlReachable (max_links n : Nat) (s : CrawlState) : Prop :=
  Relation.ReflTransGen (CrawlStep max_links) ⟨0, false, n, 0⟩ s

lemma crawlStep_stop_mono {m : Nat} {a b : CrawlState} (h : CrawlStep m a b)
    (ha : a.stop_crawling = true) : b.stop_crawling = true := by
  cases h <;> simp_all

lemma crawlStep_stopped_measure {m : Nat} {a b : CrawlState}
    (h : CrawlStep m a b) (ha : a.stop_crawling = true) :
    b.total_links + b.inFlight ≤ a.total_links + a.inFlight := by
  cases h <;> simp_all
  omega

/-- Claim C1, counterexample: with a link budget of one and two seed tasks,
the interleaving that admits both fetches before either completes reaches a
completed crawl (no task left) whose success counter is two, exceeding the
budget: the second fetch was in flight when the stop flag was set and still
increments the counter under the lock. -/
theorem budget_overrun :
    Relation.ReflTransGen (CrawlStep 1)
      (CrawlState.mk 0 false 2 0) (CrawlState.mk 2 true 0 0)
    ∧ ¬ ((2 : Nat) ≤ 1) := by
  constructor
  · refine Relation.ReflTransGen.head (CrawlStep.admitFetch 0 1 0) ?_
    refine Relation.ReflTransGen.head (CrawlStep.admitFetch 0 0 1) ?_
    refine Relation.ReflTransGen.head (CrawlStep.countSuccess 0 false 0 1) ?_
    have hstep : CrawlStep 1 (CrawlState.mk 1 true 0 1) (CrawlState.mk 2 true 0 0) := by
      have hc := @CrawlStep.countSuccess 1 1 true 0 0
      simpa using hc
    exact Relation.ReflTransGen.head hstep Relation.ReflTransGen.refl
  · omega

/-- Claim C1, amended: while the stop flag is unset the success counter stays
strictly below the budget (for a positive budget); the flag is set in the
same atomic locked step in which the counter reaches the budget; and from
any state in which the flag is set, the flag stays set and the counter can
thereafter grow by at most the number of fetches then in flight — so the
budget can be exceeded only by fetches already in flight when it was
reached, and no new fetch is admitted after that. -/
theorem budget_amended (max_links n : Nat) (hmax : 1 ≤ max_links)
    (s : CrawlState) (hs : crawlReachable max_links n s) :
    (s.stop_crawling = false → s.total_links < max_links)
    ∧ (∀ s2, Relation.ReflTransGen (CrawlStep max_links) s s2 →
        s.stop_crawling = true →
        s2.stop_crawling = true ∧
          s2.total_links + s2.inFlight ≤ s.total_links + s.inFlight) := by
  constructor
  · induction hs with
    | refl => intro _; simpa using hmax
    | tail hab hbc ih =>
      intro hcstop
      cases hbc with
      | admitFetch t e i => exact ih rfl
      | reject t b e i => exact ih hcstop
      | fetchFail t b e i => exact ih hcstop
      | countSuccess t b e i =>
        simp only [Bool.or_eq_false_iff, decide_eq_false_iff_not] at hcstop
        simp only []
        omega
      | spawn t b e i k => exact ih hcstop
  · intro s2 hrt hstop
    induction hrt with
    | refl => exact ⟨hstop, le_refl _⟩
    | tail hab hbc ih =>
      obtain ⟨hbstop, hble⟩ := ih
      refine ⟨crawlStep_stop_mono hbc hbstop, ?_⟩
      exact le_trans (crawlStep_stopped_measure hbc hbstop) hble

/-- Witness for the amended claim C1 at the initial state of a crawl with
budget one and two seeds. -/
theorem budget_amended_witness :
    (1 : Nat) ≤ 1 ∧
    (((CrawlState.mk 0 false 2 0).stop_crawling = false →
        (CrawlState.mk 0 false 2 0).total_links < 1)
      ∧ (∀ s2, Relation.ReflTransGen (CrawlStep 1) (CrawlState.mk 0 false 2 0) s2 →
          (CrawlState.mk 0 false 2 0).stop_crawling = true →
          s2.stop_crawling = true ∧
            s2.total_links + s2.inFlight ≤
              (CrawlState.mk 0 false 2 0).total_links +
                (CrawlState.mk 0 false 2 0).inFlight)) :=
  ⟨le_refl 1,
    budget_amended 1 2 (le_refl 1) (CrawlState.mk 0 false 2 0)
      Relation.ReflTransGen.refl⟩

/-!  Section 6: content extraction, from src/content_extractor.py,
`ContentExtractor.extract_content`.  The body of the try block — parsing the
markup, preserving code blocks, removing unwanted elements, extracting the
title and the cleaned body — is delegated to the external HTML library and
is abstracted as a fallible pipeline `core` producing a title, a content
string and the code blocks, or an error; the except clause returns the empty
result tagged with the source URL. -/

/-- A preserved code block: its raw text and an optional language tag. -/
structure CodeBlock where
  content : String
  language : String
deriving DecidableEq

/-- The dictionary returned by `extract_content`. -/
structure ExtractResult where
  title : String
  url : String
  content : String
  code_blocks : List CodeBlock
deriving DecidableEq

/-- `ContentExtractor.extract_content`: run the extraction pipeline on the
markup; on success, tag its result with the source URL; on any internal
failure, return the empty result tagged with the source URL instead of
propagating the failure. -/
def extract_content
    (core : String → Except String (String × String × List CodeBlock))
    (html url : String) : ExtractResult :=
  match core html with
  | Except.ok (title, content, blocks) =>
    { title := title, url := url, content := content, code_blocks := blocks }
  | Except.error _ =>
    { title := "", url := url, content := "", code_blocks := [] }

/-- Claim C9: `extract_content` never propagates an internal failure: it is a
total function whose result is always tagged with the given source URL, and
whenever the internal pipeline fails it returns the result with empty title,
empty content and empty code-block list. -/
theorem extract_content_never_raises
    (core : String → Except String (String × String × List CodeBlock))
    (html url : String) :
    (extract_content core html url).url = url
    ∧ (∀ e, core html = Except.error e →
        extract_content core html url =
          { title := "", url := url, content := "", code_blocks := [] }) := by
  constructor
  · unfold extract_content
    cases core html with
    | ok v =>
      obtain ⟨t, c, bs⟩ := v
      rfl
    | error e => rfl
  · intro e he
    unfold extract_content
    rw [he]

/-- Witness for claim C9 on a pipeline that always fails. -/
theorem extract_content_never_raises_witness :
    extract_content (fun _ => Except.error "parse failure") "<p>x</p>" "u" =
      { title := "", url := "u", content := "", code_blocks := [] } :=
  (extract_content_never_raises (fun _ => Except.error "parse failure")
    "<p>x</p>" "u").2 "parse failure" rfl

/-!  Section 7: the site-map aggregator and the public seed interface, from
src/site_mapper.py, `SiteMapper.generate_output`, and src/crawler.py,
`Crawler.crawl` (lines 96-125).  Both accept either a single seed URL string
or a list of them and coerce the string to a one-element list first. -/

/-- Either a bare string or a list of strings, the two accepted shapes of
the `start_urls` argument. -/
inductive StrOrList where
  | str (s : String)
  | list (l : List String)

/-- The isinstance coercion at the top of `crawl` and `generate_output`. -/
def ensureList : StrOrList → List String
  | StrOrList.str s => [s]
  | StrOrList.list l => l

/-- One page's record in the site map. -/
structure SiteMapEntry where
  links : List String
  depth : Nat
  title : String
  timestamp : String
deriving DecidableEq

/-- One entry of the running text corpus. -/
structure CorpusEntry where
  url : String
  title : String
  content : String
  code_blocks : List CodeBlock
deriving DecidableEq

/-- State of a `SiteMapper`. -/
structure SiteMapperState where
  site_map : List (String × SiteMapEntry)
  concatenated_text : List CorpusEntry
deriving DecidableEq

/-- The report built by `generate_output`. -/
structure CrawlOutput where
  start_urls : List String
  crawl_date : String
  total_pages : Nat
  site_map : List (String × SiteMapEntry)
  llmfulltext : String
deriving DecidableEq

/-- `SiteMapper.generate_output` at timestamp `now`: coerce a bare seed
string to a one-element list, join the corpus entries into the full text,
and assemble metadata, site map and text into the report. -/
def generate_output (m : SiteMapperState) (now : String)
    (start_urls : StrOrList) : CrawlOutput :=
  let urls := ensureList start_urls
  let full_text := String.intercalate "\n\n" <| m.concatenated_text.map
    fun p => "# " ++ p.title ++ "\nURL: " ++ p.url ++ "\n\n" ++ p.content
  { start_urls := urls
    crawl_date := now
    total_pages := m.site_map.length
    site_map := m.site_map
    llmfulltext := full_text }

/-- The seed-dependent setup a call to `Crawler.crawl` performs: the keys of
the per-origin handler dictionary, the top-level task arguments (url, depth
zero, origin equal to the url), and the report generated from the coerced
seed list. -/
structure CrawlSetup where
  handler_keys : List String
  initial_tasks : List (String × Nat × String)
  output : CrawlOutput
deriving DecidableEq

/-- `Crawler.crawl`: coerce a bare string seed to a one-element list, build
one URL handler per seed, launch one task per seed at depth zero with the
seed as its own origin, and generate the report from the coerced list. -/
def crawl (m : SiteMapperState) (now : String) (start_urls : StrOrList) :
    CrawlSetup :=
  let urls := ensureList start_urls
  { handler_keys := urls
    initial_tasks := urls.map fun u => (u, 0, u)
    output := generate_output m now (StrOrList.list urls) }

/-- Claim C10: giving `crawl` (or `generate_output`) a single seed URL string
is accepted and behaves exactly as giving the one-element list of it. -/
theorem crawl_accepts_string_seed (m : SiteMapperState) (now s : String) :
    crawl m now (StrOrList.str s) = crawl m now (StrOrList.list [s])
    ∧ generate_output m now (StrOrList.str s) =
        generate_output m now (StrOrList.list [s]) :=
  ⟨rfl, rfl⟩

end WebCrawler
